import Mathlib

/-!
Verification of the sharded-view (use_orig_params) reconciliation protocol of
this PyTorch excerpt.  The excerpt contains the FSDP use_orig_params test file
(`test/distributed/fsdp/test_fsdp_use_orig_params.py`) and an auto-generated
SARIF data class (`torch/onnx/_internal/diagnostics/infra/sarif_om/_graph.py`).
The FSDP engine itself (FlatParameter sharding, `summon_full_params`,
writeback, `clean_tensor_name`) is part of the repository but absent from this
excerpt, so those components are modelled from the specification; the
definitions below say so explicitly in their doc comments.  Everything taken
from code present in the excerpt is translated directly from the source.
-/

/-! ## Sharding-strategy string parsing (from the source)

`_get_sharding_strategy_from_str` in `test_fsdp_use_orig_params.py`.
-/

/-- The three sharding strategies the test file exercises
(`ShardingStrategy` from `torch.distributed.fsdp`). -/
inductive ShardingStrategy where
  | FULL_SHARD
  | SHARD_GRAD_OP
  | NO_SHARD
  deriving DecidableEq, Repr

/-- Translation of `_get_sharding_strategy_from_str`
(test_fsdp_use_orig_params.py lines 186-195): maps the three recognised
strings to their strategies and raises `ValueError(f"Invalid string: {s}")`
on any other input, modelled as `Except.error`. -/
def get_sharding_strategy_from_str (s : String) : Except String ShardingStrategy :=
  if s = "no_shard" then .ok .NO_SHARD
  else if s = "shard_grad_op" then .ok .SHARD_GRAD_OP
  else if s = "full_shard" then .ok .FULL_SHARD
  else .error ("Invalid string: " ++ s)

/-! ## SARIF `Graph` data class (from the source)

`torch/onnx/_internal/diagnostics/infra/sarif_om/_graph.py`: an `attr.s`
class whose four attributes all have `default=None` and a
`schema_property_name` metadata entry equal to the attribute's own name.
The attribute values are untyped in the Python source, so the model is
polymorphic in the value type.
-/

/-- Translation of the `Graph` attrs class: four optional attributes, each
defaulting to `None`. -/
structure Graph (α : Type) where
  description : Option α := none
  edges : Option α := none
  nodes : Option α := none
  properties : Option α := none
  deriving DecidableEq, Repr

/-- One `attr.ib(...)` declaration: the attribute's name and the
`schema_property_name` entry of its metadata dictionary. -/
structure AttrField where
  name : String
  schemaPropertyName : String
  deriving DecidableEq, Repr

/-- The ordered attribute declarations of the `Graph` class, with their
metadata, exactly as in `_graph.py` lines 10-15. -/
def Graph.attrFields : List AttrField :=
  [⟨"description", "description"⟩,
   ⟨"edges", "edges"⟩,
   ⟨"nodes", "nodes"⟩,
   ⟨"properties", "properties"⟩]

/-! ## Theorems for the source-translated components -/

/-- C9: the sharding-strategy string parsing maps exactly "no_shard",
"shard_grad_op" and "full_shard" to their strategies and fails on every
other string with a `ValueError` naming the invalid string. -/
theorem sharding_strategy_from_str_spec :
    get_sharding_strategy_from_str "no_shard" = .ok .NO_SHARD ∧
    get_sharding_strategy_from_str "shard_grad_op" = .ok .SHARD_GRAD_OP ∧
    get_sharding_strategy_from_str "full_shard" = .ok .FULL_SHARD ∧
    ∀ s : String, s ≠ "no_shard" → s ≠ "shard_grad_op" → s ≠ "full_shard" →
      get_sharding_strategy_from_str s = .error ("Invalid string: " ++ s) := by
  refine ⟨rfl, rfl, rfl, fun s h1 h2 h3 => ?_⟩
  simp [get_sharding_strategy_from_str, h1, h2, h3]

/-- Witness for C9 at the concrete invalid string "bogus". -/
theorem sharding_strategy_from_str_spec_witness :
    get_sharding_strategy_from_str "bogus" = .error ("Invalid string: " ++ "bogus") :=
  sharding_strategy_from_str_spec.2.2.2 "bogus" (by decide) (by decide) (by decide)

/-- C10: constructing `Graph` with no arguments yields all four attributes
`None`, and each attribute's `schema_property_name` metadata equals its own
name. -/
theorem graph_defaults_and_metadata :
    ∀ α : Type,
      ({} : Graph α).description = none ∧
      ({} : Graph α).edges = none ∧
      ({} : Graph α).nodes = none ∧
      ({} : Graph α).properties = none ∧
      (Graph.attrFields.all fun a => a.schemaPropertyName == a.name) = true := by
  intro α
  exact ⟨rfl, rfl, rfl, rfl, by decide⟩

/-! ## Sharded-view reconciliation protocol (modelled from the spec)

The FSDP engine (`torch/distributed/fsdp`) is part of this repository but is
not included in the excerpt; only its tests are.  The definitions in this
section are therefore modelled from the specification (spec.md sections 3, 4,
6 and 7), which describes the protocol's data model (Shard, FlatParameter,
OriginalParameterView), the SummonScope all-gather/writeback life cycle and
the WritebackReconciler's detection and shape-validation policy.
-/

/-- Modelled from the spec: a tensor of the absent FSDP engine, reduced to its
logical shape and flattened contents (exact integers in place of floats). -/
structure Tensor where
  shape : List Nat
  data : List Int
  deriving DecidableEq, Repr

/-- Number of elements of a tensor: the product of its shape. -/
def Tensor.numel (t : Tensor) : Nat := t.shape.prod

/-- Modelled from the spec: the descriptor of one original (unflattened)
constituent parameter of a `FlatParameter` — its dotted name and its shape
recorded at wrap time. -/
structure ParamInfo where
  name : String
  shape : List Nat
  deriving DecidableEq, Repr

/-- Number of elements of an original parameter. -/
def ParamInfo.numel (p : ParamInfo) : Nat := p.shape.prod

/-- Modelled from the spec: a `FlatParameter` — the ordered sequence of
constituent parameter descriptors, flattened and concatenated in a fixed
deterministic order, right-padded so every one of `worldSize` ranks holds an
equal-length shard. -/
structure FlatParameter where
  params : List ParamInfo
  worldSize : Nat
  deriving DecidableEq, Repr

/-- Total element count of the constituent parameters, before padding. -/
def FlatParameter.totalNumel (fp : FlatParameter) : Nat :=
  (fp.params.map ParamInfo.numel).sum

/-- Element count after right-padding up to a multiple of the world size. -/
def FlatParameter.paddedNumel (fp : FlatParameter) : Nat :=
  fp.worldSize * ((fp.totalNumel + fp.worldSize - 1) / fp.worldSize)

/-- Element count of each rank's shard. -/
def FlatParameter.shardNumel (fp : FlatParameter) : Nat :=
  fp.paddedNumel / fp.worldSize

/-- Offset of the `i`-th constituent parameter inside the flat buffer:
the sum of the element counts of the parameters before it. -/
def FlatParameter.offset (fp : FlatParameter) (i : Nat) : Nat :=
  ((fp.params.take i).map ParamInfo.numel).sum

/-- Modelled from the spec: the shard of rank `r` is the contiguous slice
`[r * shardNumel, (r+1) * shardNumel)` of the padded flat buffer. -/
def shardOf (fp : FlatParameter) (flatData : List Int) (r : Nat) : List Int :=
  (flatData.drop (r * fp.shardNumel)).take fp.shardNumel

/-- Modelled from the spec: outside a summon scope, rank `r` sees of the
`i`-th parameter only the overlap of the parameter's region
`[offset i, offset i + numel i)` with the rank's shard region; this is the
number of elements of that overlap (0 when the parameter lies entirely on
other ranks). -/
def shardedParamNumel (fp : FlatParameter) (r i : Nat) : Nat :=
  let lo := r * fp.shardNumel
  let hi := lo + fp.shardNumel
  let plo := fp.offset i
  let phi := plo + ((fp.params[i]?).map ParamInfo.numel).getD 0
  min hi phi - max lo plo

/-- Modelled from the spec: materializing the `i`-th original parameter inside
a summon scope — after the all-gather reconstructs the full flat buffer on
every participant, the parameter's full tensor is the slice
`[offset i, offset i + numel i)` reshaped to its recorded shape. -/
def summonParam (fp : FlatParameter) (flatData : List Int) (i : Nat) : Tensor :=
  match fp.params[i]? with
  | some p => ⟨p.shape, (flatData.drop (fp.offset i)).take p.numel⟩
  | none => ⟨[], []⟩

/-- Modelled from the spec: the externally visible slot an original parameter
occupies during a summon scope — the identity of the installed tensor object
(`objId`) together with its value.  User code may rebind the slot to a fresh
object or mutate the contents in place, keeping the identity. -/
structure ParamSlot where
  objId : Nat
  tensor : Tensor
  deriving DecidableEq, Repr

/-- Modelled from the spec: scope entry installs, for each constituent
parameter, a fresh tensor object holding the gathered full value. -/
def summonEnter (fp : FlatParameter) (flatData : List Int) : List ParamSlot :=
  (List.range fp.params.length).map fun i => ⟨i, summonParam fp flatData i⟩

/-- Modelled from the spec: the WritebackReconciler's detection policy — a
parameter is considered changed if the exit-time tensor is a different object
than what was installed at entry, OR its value differs (in-place `.data`
mutation preserving identity).  Either triggers writeback. -/
def needsWriteback (entry exitSlot : ParamSlot) : Bool :=
  decide (exitSlot.objId ≠ entry.objId) || decide (exitSlot.tensor ≠ entry.tensor)

/-- Modelled from the spec: writeback of one parameter — the exit-time
tensor's logical shape must exactly match the shape recorded at wrap time;
on match the full slice `[offset i, offset i + numel i)` of the flat buffer
is replaced by the exit-time contents, otherwise the reconciler fails with a
`Cannot writeback` error and writes nothing. -/
def writebackParam (fp : FlatParameter) (flatData : List Int) (i : Nat)
    (t : Tensor) : Except String (List Int) :=
  match fp.params[i]? with
  | none => .error "NotFoundError"
  | some p =>
    if t.shape = p.shape then
      .ok (flatData.take (fp.offset i) ++ t.data
            ++ flatData.drop (fp.offset i + p.numel))
    else
      .error ("Cannot writeback" ++ (" parameter " ++ p.name))

/-- Modelled from the spec: scope exit walks the entry and exit slots in
parameter order (`i` is the index of the first remaining parameter), invoking
the reconciler on each changed slot; the first shape mismatch aborts with its
error. -/
def summonExitAux (fp : FlatParameter) :
    Nat → List ParamSlot → List ParamSlot → List Int → Except String (List Int)
  | _, [], _, fd => .ok fd
  | _, _ :: _, [], fd => .ok fd
  | i, e :: es, x :: xs, fd =>
    if needsWriteback e x then
      match writebackParam fp fd i x.tensor with
      | .ok fd2 => summonExitAux fp (i + 1) es xs fd2
      | .error msg => .error msg
    else
      summonExitAux fp (i + 1) es xs fd

/-- The outcome of exiting a summon scope: the persistent flat storage after
reconciliation, whether the transient full tensors were released (always, on
every exit path), and the surfaced error, if any. -/
structure ExitResult where
  flatData : List Int
  fullTensorsReleased : Bool
  error : Option String
  deriving DecidableEq, Repr

/-- Modelled from the spec: exiting a summon scope — reconcile every changed
parameter; a shape mismatch surfaces its error to the caller, never partially
applies a write (persistent storage is then left as it was), and the
transient full tensors are released on every exit path. -/
def summonExit (fp : FlatParameter) (flatData : List Int)
    (entrySlots exitSlots : List ParamSlot) : ExitResult :=
  match summonExitAux fp 0 entrySlots exitSlots flatData with
  | .ok fd => ⟨fd, true, none⟩
  | .error msg => ⟨flatData, true, some msg⟩

/-! ## Helper lemmas about the reconciliation model -/

/-- A slot compared with itself is never flagged for writeback. -/
theorem needsWriteback_self (e : ParamSlot) : needsWriteback e e = false := by
  simp [needsWriteback]

/-- Scope exit over unchanged slots performs no writeback at all. -/
theorem summonExitAux_noop (fp : FlatParameter) :
    ∀ (es : List ParamSlot) (i : Nat) (fd : List Int),
      summonExitAux fp i es es fd = .ok fd := by
  intro es
  induction es with
  | nil => intro i fd; rfl
  | cons e es ih =>
    intro i fd
    simp [summonExitAux, needsWriteback_self, ih]

/-- Scope exit where exactly one slot was replaced reduces to the single
writeback of that slot at its parameter index. -/
theorem summonExitAux_set (fp : FlatParameter) :
    ∀ (es : List ParamSlot) (k : Nat) (h : k < es.length) (x : ParamSlot)
      (i : Nat) (fd : List Int),
      needsWriteback es[k] x = true →
      summonExitAux fp i es (es.set k x) fd = writebackParam fp fd (i + k) x.tensor := by
  intro es
  induction es with
  | nil => intro k h; exact absurd h (by simp)
  | cons e es ih =>
    intro k h x i fd hwb
    cases k with
    | zero =>
      have hwb0 : needsWriteback e x = true := hwb
      show summonExitAux fp i (e :: es) (x :: es) fd = writebackParam fp fd (i + 0) x.tensor
      rw [Nat.add_zero]
      simp only [summonExitAux, hwb0, if_true]
      cases hw : writebackParam fp fd i x.tensor with
      | ok fd2 => simp [summonExitAux_noop]
      | error m => rfl
    | succ m =>
      have hlt : m < es.length := Nat.lt_of_succ_lt_succ h
      have hwb1 : needsWriteback es[m] x = true := by
        simpa using hwb
      show summonExitAux fp i (e :: es) (e :: es.set m x) fd
            = writebackParam fp fd (i + (m + 1)) x.tensor
      simp only [summonExitAux, needsWriteback_self, if_false, Bool.false_eq_true]
      rw [ih m hlt x (i + 1) fd hwb1]
      congr 1
      omega

/-- Incrementing every dimension of a nonempty shape changes the shape. -/
theorem map_succ_ne (l : List Nat) (h : l ≠ []) : l.map (fun n => n + 1) ≠ l := by
  cases l with
  | nil => exact absurd rfl h
  | cons a t =>
    intro hmap
    injection hmap with h1 _
    exact absurd h1 (Nat.succ_ne_self a)

/-- The slot installed at entry for the `i`-th parameter. -/
theorem summonEnter_getElem (fp : FlatParameter) (flatData : List Int) (i : Nat)
    (hi : i < (summonEnter fp flatData).length) :
    (summonEnter fp flatData)[i] = ⟨i, summonParam fp flatData i⟩ := by
  simp [summonEnter]

/-- Entry installs one slot per constituent parameter. -/
theorem summonEnter_length (fp : FlatParameter) (flatData : List Int) :
    (summonEnter fp flatData).length = fp.params.length := by
  simp [summonEnter]

/-! ## Theorems for the reconciliation protocol -/

/-- C6: entering a summon scope and exiting it with no mutation of any
parameter leaves the shard storage byte-identical to its state before entry
(the persistent flat buffer, hence every rank's shard slice, is unchanged),
so a summon interposed between two forward passes does not disturb the
subsequent computation. -/
theorem summon_noop_idempotent (fp : FlatParameter) (flatData : List Int) :
    summonExit fp flatData (summonEnter fp flatData) (summonEnter fp flatData) =
      ⟨flatData, true, none⟩ := by
  simp [summonExit, summonExitAux_noop]

/-- C5: the writeback reconciler flags a parameter as changed, and performs
the writeback, in both mutation forms — rebinding the slot to a different
tensor object, and replacing only the underlying contents while preserving
the object's identity; either form alone triggers the writeback. -/
theorem writeback_detects_rebind_and_data_mutation
    (e x : ParamSlot) (fp : FlatParameter) (fd : List Int) (i : Nat) :
    (x.objId ≠ e.objId → needsWriteback e x = true) ∧
    (x.objId = e.objId → x.tensor.data ≠ e.tensor.data → needsWriteback e x = true) ∧
    (needsWriteback e x = true →
      summonExitAux fp i [e] [x] fd = writebackParam fp fd i x.tensor) := by
  refine ⟨?_, ?_, ?_⟩
  · intro h
    simp [needsWriteback]
    exact Or.inl h
  · intro _ hdata
    simp [needsWriteback]
    exact Or.inr fun ht => hdata (congrArg Tensor.data ht)
  · intro hwb
    simp only [summonExitAux, hwb, if_true]
    cases hw : writebackParam fp fd i x.tensor with
    | ok fd2 => rfl
    | error m => rfl

/-- C3: reassigning the `i`-th original parameter to `2 * ones_like` of its
recorded shape inside a summon scope and exiting succeeds, and the persistent
flat buffer — whose rank-`r` slice is exactly rank `r`'s shard storage — holds
the all-twos value over that parameter's region, so a subsequent summon
materializes the new full value on every rank. -/
theorem writeback_round_trip (fp : FlatParameter) (flatData : List Int)
    (i : Nat) (p : ParamInfo) (hp : fp.params[i]? = some p)
    (hlen : fp.offset i + p.numel ≤ flatData.length) :
    summonExit fp flatData (summonEnter fp flatData)
        ((summonEnter fp flatData).set i
          ⟨fp.params.length, ⟨p.shape, List.replicate p.numel 2⟩⟩) =
      ⟨flatData.take (fp.offset i) ++ List.replicate p.numel 2
        ++ flatData.drop (fp.offset i + p.numel), true, none⟩ ∧
    summonParam fp
        (flatData.take (fp.offset i) ++ List.replicate p.numel 2
          ++ flatData.drop (fp.offset i + p.numel)) i =
      ⟨p.shape, List.replicate p.numel 2⟩ := by
  have hi : i < fp.params.length := by
    by_contra hnot
    rw [List.getElem?_eq_none (Nat.le_of_not_lt hnot)] at hp
    cases hp
  have hi' : i < (summonEnter fp flatData).length := by
    rw [summonEnter_length]; exact hi
  have hwb : needsWriteback (summonEnter fp flatData)[i]
      ⟨fp.params.length, ⟨p.shape, List.replicate p.numel 2⟩⟩ = true := by
    rw [summonEnter_getElem fp flatData i hi']
    simp [needsWriteback]
    exact Or.inl (ne_of_gt hi)
  have haux := summonExitAux_set fp (summonEnter fp flatData) i hi'
    ⟨fp.params.length, ⟨p.shape, List.replicate p.numel 2⟩⟩ 0 flatData hwb
  rw [Nat.zero_add] at haux
  have hwrite : writebackParam fp flatData i
      (⟨p.shape, List.replicate p.numel 2⟩ : Tensor) =
      .ok (flatData.take (fp.offset i) ++ List.replicate p.numel 2
        ++ flatData.drop (fp.offset i + p.numel)) := by
    simp [writebackParam, hp]
  refine ⟨?_, ?_⟩
  · simp [summonExit, haux, hwrite]
  · have hofflen : (flatData.take (fp.offset i)).length = fp.offset i := by
      rw [List.length_take]
      exact Nat.min_eq_left (le_trans (Nat.le_add_right _ _) hlen)
    have hreplen : (List.replicate p.numel (2 : Int)).length = p.numel :=
      List.length_replicate _ _
    simp only [summonParam, hp]
    rw [List.append_assoc, List.drop_left' hofflen, List.take_left' hreplen]

/-- C2: reassigning a locally-present original parameter to a tensor whose
every dimension is incremented by 1 makes scope exit fail with an error whose
message carries the prefix "Cannot writeback", surfaced to the caller in the
exit result. -/
theorem writeback_shape_mismatch_raises (fp : FlatParameter) (flatData : List Int)
    (i : Nat) (p : ParamInfo) (d : List Int) (hp : fp.params[i]? = some p)
    (hne : p.shape ≠ []) :
    summonExit fp flatData (summonEnter fp flatData)
        ((summonEnter fp flatData).set i
          ⟨fp.params.length, ⟨p.shape.map (fun n => n + 1), d⟩⟩) =
      ⟨flatData, true, some ("Cannot writeback" ++ (" parameter " ++ p.name))⟩ ∧
    ∃ suffix, "Cannot writeback" ++ (" parameter " ++ p.name)
      = "Cannot writeback" ++ suffix := by
  have hi : i < fp.params.length := by
    by_contra hnot
    rw [List.getElem?_eq_none (Nat.le_of_not_lt hnot)] at hp
    cases hp
  have hi' : i < (summonEnter fp flatData).length := by
    rw [summonEnter_length]; exact hi
  have hwb : needsWriteback (summonEnter fp flatData)[i]
      ⟨fp.params.length, ⟨p.shape.map (fun n => n + 1), d⟩⟩ = true := by
    rw [summonEnter_getElem fp flatData i hi']
    simp [needsWriteback]
    exact Or.inl (ne_of_gt hi)
  have haux := summonExitAux_set fp (summonEnter fp flatData) i hi'
    ⟨fp.params.length, ⟨p.shape.map (fun n => n + 1), d⟩⟩ 0 flatData hwb
  rw [Nat.zero_add] at haux
  have hwrite : writebackParam fp flatData i
      (⟨p.shape.map (fun n => n + 1), d⟩ : Tensor) =
      .error ("Cannot writeback" ++ (" parameter " ++ p.name)) := by
    simp [writebackParam, hp, map_succ_ne p.shape hne]
  exact ⟨by simp [summonExit, haux, hwrite], ⟨" parameter " ++ p.name, rfl⟩⟩

/-- C4: on every exit path the transient full tensors are released, and
whenever scope exit surfaces an error (in particular a writeback shape
mismatch) the persistent shard storage is returned unchanged — no partial
write ever reaches it. -/
theorem writeback_error_leaves_storage_unchanged (fp : FlatParameter)
    (flatData : List Int) (entrySlots exitSlots : List ParamSlot) :
    (summonExit fp flatData entrySlots exitSlots).fullTensorsReleased = true ∧
    ((summonExit fp flatData entrySlots exitSlots).error ≠ none →
      (summonExit fp flatData entrySlots exitSlots).flatData = flatData) := by
  unfold summonExit
  cases summonExitAux fp 0 entrySlots exitSlots flatData with
  | ok fd => exact ⟨rfl, fun h => absurd rfl h⟩
  | error m => exact ⟨rfl, fun _ => rfl⟩

/-! ## Concrete scenario from the tests

The writeback test wraps `Linear(5, 5, bias=False)` (25 elements, padded to
26, 13 per rank at world size 2) and the access test additionally wraps
`Linear(5, 7)` whose weight (35 elements) and bias (7 elements) flatten to 42
elements with no padding. -/

/-- The flat parameter holding `lin1.weight` (shape 5 x 5) at world size 2. -/
def fpLin1 : FlatParameter := ⟨[⟨"lin1.weight", [5, 5]⟩], 2⟩

/-- The flat parameter holding `lin2.weight` (shape 7 x 5) and `lin2.bias`
(shape 7) at world size 2. -/
def fpLin2 : FlatParameter := ⟨[⟨"lin2.weight", [7, 5]⟩, ⟨"lin2.bias", [7]⟩], 2⟩

/-- A concrete padded flat buffer for `fpLin1` (26 elements). -/
def flat26 : List Int := List.replicate 26 0

/-- C7: in the two-rank scenario, `lin1.weight` has 25 elements padded to 26
with a 13-element shard per rank; `lin2.weight` plus `lin2.bias` total 42
elements with no padding and a 21-element shard per rank, of which rank 0
sees 21 weight elements and no bias, while rank 1 sees 14 weight elements and
all 7 bias elements — outside a summon scope each rank sees only these local
portions. -/
theorem shard_visibility_scenario :
    fpLin1.totalNumel = 25 ∧ fpLin1.paddedNumel = 26 ∧ fpLin1.shardNumel = 13 ∧
    fpLin2.totalNumel = 42 ∧ fpLin2.paddedNumel = 42 ∧ fpLin2.shardNumel = 21 ∧
    shardedParamNumel fpLin2 0 0 = 21 ∧ shardedParamNumel fpLin2 0 1 = 0 ∧
    shardedParamNumel fpLin2 1 0 = 14 ∧ shardedParamNumel fpLin2 1 1 = 7 := by
  decide

/-! ## Name cleaning (modelled from the spec)

`clean_tensor_name` belongs to the absent FSDP implementation; the spec says
enumeration through the sharded wrapper, after stripping internal wrapping
components from each dotted name, must yield the reference module's ordered
name sequence.  Dotted names are modelled as their component lists. -/

/-- Modelled from the spec: the relation between an original dotted parameter
name and its name under the sharded wrapper — wrapping inserts internal
wrapper components (such as "_fsdp_wrapped_module") anywhere in the dotted
path while keeping the original components in order. -/
inductive InsertedWrap (w : String) : List String → List String → Prop where
  | nil : InsertedWrap w [] []
  | keep (a : String) {l l' : List String} :
      InsertedWrap w l l' → InsertedWrap w (a :: l) (a :: l')
  | wrap {l l' : List String} :
      InsertedWrap w l l' → InsertedWrap w l (w :: l')

/-- Modelled from the spec: `clean_tensor_name` strips every internal
wrapper component from a dotted name. -/
def cleanTensorName (w : String) (n : List String) : List String :=
  n.filter (fun c => c != w)

/-- Stripping the wrapper component from a wrapped name recovers the original
name, provided the original never uses the wrapper component itself. -/
theorem cleanTensorName_inserted (w : String) :
    ∀ {o wr : List String}, InsertedWrap w o wr → w ∉ o →
      cleanTensorName w wr = o := by
  intro o wr h
  induction h with
  | nil => intro _; rfl
  | keep a h ih =>
    intro hw
    rw [List.mem_cons, not_or] at hw
    have ha : (a != w) = true := by
      rw [bne_iff_ne]
      exact fun he => hw.1 he.symm
    simp [cleanTensorName, List.filter_cons, ha]
    simpa [cleanTensorName] using ih hw.2
  | wrap h ih =>
    intro hw
    have hww : (w != w) = false := by simp
    simp [cleanTensorName, List.filter_cons, hww]
    simpa [cleanTensorName] using ih hw

/-- C8: enumerating named parameters through the sharded wrapper and
stripping the internal wrapping components from each name yields exactly the
same ordered sequence of names as enumerating the reference unsharded
module's parameters. -/
theorem clean_names_parity (w : String) (origs wrappeds : List (List String))
    (h : List.Forall₂ (InsertedWrap w) origs wrappeds)
    (hw : ∀ n ∈ origs, w ∉ n) :
    wrappeds.map (cleanTensorName w) = origs := by
  revert hw
  induction h with
  | nil => intro _; rfl
  | cons hd tl ih =>
    intro hw
    simp only [List.map_cons]
    rw [cleanTensorName_inserted w hd (hw _ (List.mem_cons_self _ _)),
        ih (fun n hn => hw n (List.mem_cons_of_mem _ hn))]

/-- Witness for C8: the two-linear model's names under one level of FSDP
wrapping clean back to the reference names, in order. -/
theorem clean_names_parity_witness :
    [["_fsdp_wrapped_module", "lin1", "weight"],
     ["_fsdp_wrapped_module", "lin2", "weight"]].map
        (cleanTensorName "_fsdp_wrapped_module") =
      [["lin1", "weight"], ["lin2", "weight"]] :=
  clean_names_parity "_fsdp_wrapped_module"
    [["lin1", "weight"], ["lin2", "weight"]]
    [["_fsdp_wrapped_module", "lin1", "weight"],
     ["_fsdp_wrapped_module", "lin2", "weight"]]
    (List.Forall₂.cons
      (InsertedWrap.wrap (InsertedWrap.keep "lin1" (InsertedWrap.keep "weight" InsertedWrap.nil)))
      (List.Forall₂.cons
        (InsertedWrap.wrap (InsertedWrap.keep "lin2" (InsertedWrap.keep "weight" InsertedWrap.nil)))
        List.Forall₂.nil))
    (by decide)

/-! ## Witnesses for the reconciliation theorems -/

/-- Witness for C3: writing `2 * ones_like(lin1.weight)` back through a
summon scope at world size 2 lands the all-twos value in the flat buffer. -/
theorem writeback_round_trip_witness :
    summonExit fpLin1 flat26 (summonEnter fpLin1 flat26)
        ((summonEnter fpLin1 flat26).set 0 ⟨1, ⟨[5, 5], List.replicate 25 2⟩⟩) =
      ⟨flat26.take 0 ++ List.replicate 25 2 ++ flat26.drop 25, true, none⟩ ∧
    summonParam fpLin1 (flat26.take 0 ++ List.replicate 25 2 ++ flat26.drop 25) 0 =
      ⟨[5, 5], List.replicate 25 2⟩ :=
  writeback_round_trip fpLin1 flat26 0 ⟨"lin1.weight", [5, 5]⟩ rfl (by decide)

/-- Witness for C2: reassigning `lin1.weight` to a 6 x 6 tensor makes scope
exit surface the "Cannot writeback" error. -/
theorem writeback_shape_mismatch_raises_witness :
    summonExit fpLin1 flat26 (summonEnter fpLin1 flat26)
        ((summonEnter fpLin1 flat26).set 0 ⟨1, ⟨[6, 6], List.replicate 36 0⟩⟩) =
      ⟨flat26, true, some ("Cannot writeback" ++ (" parameter " ++ "lin1.weight"))⟩ ∧
    ∃ suffix, "Cannot writeback" ++ (" parameter " ++ "lin1.weight")
      = "Cannot writeback" ++ suffix :=
  writeback_shape_mismatch_raises fpLin1 flat26 0 ⟨"lin1.weight", [5, 5]⟩
    (List.replicate 36 0) rfl (by decide)

/-- Witness for C4: at the concrete mismatching exit the error is surfaced
yet the flat buffer comes back unchanged. -/
theorem writeback_error_leaves_storage_unchanged_witness :
    (summonExit fpLin1 flat26 (summonEnter fpLin1 flat26)
        ((summonEnter fpLin1 flat26).set 0 ⟨1, ⟨[6, 6], List.replicate 36 0⟩⟩)).error
      ≠ none ∧
    (summonExit fpLin1 flat26 (summonEnter fpLin1 flat26)
        ((summonEnter fpLin1 flat26).set 0 ⟨1, ⟨[6, 6], List.replicate 36 0⟩⟩)).flatData
      = flat26 :=
  ⟨by decide,
   (writeback_error_leaves_storage_unchanged fpLin1 flat26 (summonEnter fpLin1 flat26)
      ((summonEnter fpLin1 flat26).set 0 ⟨1, ⟨[6, 6], List.replicate 36 0⟩⟩)).2
     (by decide)⟩

/-- Witness for C5: a rebound slot (fresh object id, same value) and an
in-place data mutation (same object id, new value) are both flagged. -/
theorem writeback_detects_rebind_and_data_mutation_witness :
    needsWriteback ⟨0, ⟨[2], [1, 1]⟩⟩ ⟨1, ⟨[2], [1, 1]⟩⟩ = true ∧
    needsWriteback ⟨0, ⟨[2], [1, 1]⟩⟩ ⟨0, ⟨[2], [2, 2]⟩⟩ = true :=
  ⟨(writeback_detects_rebind_and_data_mutation
      ⟨0, ⟨[2], [1, 1]⟩⟩ ⟨1, ⟨[2], [1, 1]⟩⟩ fpLin1 [] 0).1 (by decide),
   (writeback_detects_rebind_and_data_mutation
      ⟨0, ⟨[2], [1, 1]⟩⟩ ⟨0, ⟨[2], [2, 2]⟩⟩ fpLin1 [] 0).2.1 rfl (by decide)⟩
